import Mathlib

/-!
# Shallow embedding of `src/snp/vcf.c` (WASP VCF decoder)

Strings are `List Char`; C's destructive `strsep` tokenizer is modelled by a
pure splitter over the remaining-string state (`Option (List Char)`, where
`none` models a `NULL` cursor).  `sscanf` patterns `"%d|%d"`, `"%d/%d"` and
`"%g,%g,%g"` are modelled by explicit scanners.  Fatal `my_err` calls are the
`Except.error` constructors of `Err`; `my_warn` calls are accumulated in a
`List Warn`.  C `float`/`double` values are modelled as exact rationals, with
the libm call `pow(10.0, x)` an abstract parameter `pow10`.  The `static int
warn_phase` process state of `parse_haplotypes` is threaded explicitly as a
`Bool` argument and result.
-/

namespace WASP

abbrev Str := List Char

/-- `#define VCF_GTYPE_MISSING -1` (vcf.c line 10). -/
def VCF_GTYPE_MISSING : Int := -1

/-- The whitespace delimiter set `" \t"` used by every `strsep` call in vcf.c. -/
def isLineDelim (c : Char) : Bool := c = ' ' || c = '\t'

/-- The `":"` delimiter used for format strings and sample subfields. -/
def isColon (c : Char) : Bool := c = ':'

/-- Locate the first delimiter character: `some (before, after)` when one
exists, `none` when the string holds no delimiter. -/
def splitFirst (isDelim : Char → Bool) : Str → Option (Str × Str)
  | [] => none
  | c :: rest =>
    if isDelim c then some ([], rest)
    else (splitFirst isDelim rest).map (fun p => (c :: p.1, p.2))

/-- Prepend a character to the first field of a split (helper for
`strsepSplit`). -/
def consHead (c : Char) : List Str → List Str
  | [] => [[c]]
  | t :: ts => (c :: t) :: ts

/-- The full token sequence produced by calling C `strsep` repeatedly until it
returns `NULL`: fields between delimiter characters, empty fields included
(`strsep` of the empty string yields one empty token). -/
def strsepSplit (isDelim : Char → Bool) : Str → List Str
  | [] => [[]]
  | c :: rest =>
    if isDelim c then [] :: strsepSplit isDelim rest
    else consHead c (strsepSplit isDelim rest)

/-- One C `strsep(&cur, delim)` call on cursor state `st` (`none` = `NULL`):
returns `(token?, new state)`. -/
def strsepStep (isDelim : Char → Bool) : Option Str → Option Str × Option Str
  | none => (none, none)
  | some s =>
    match splitFirst isDelim s with
    | none => (some s, none)
    | some (b, a) => (some b, some a)

/-- All tokens obtainable from cursor state `st` by repeated `strsep`. -/
def tokensOf (isDelim : Char → Bool) : Option Str → List Str
  | none => []
  | some s => strsepSplit isDelim s

/-- Modelled from the spec: `util_strncpy` from the repository's util.c, which
is not under src/ (spec §1 lists "generic string utilities (bounded copy,
numeric parsing)" as external collaborators).  Bounded copy into a buffer of
capacity `cap`: at most `cap - 1` characters are stored (NUL-terminated); the
C function returns the number of characters stored, which is the length of the
result here. -/
def util_strncpy (cap : Nat) (src : Str) : Str := src.take (cap - 1)

/-- Modelled from the spec: `util_str_starts_with` from the missing util.c;
true when `pre` is a leading substring of `s`. -/
def util_str_starts_with (s pre : Str) : Bool := decide (s.take pre.length = pre)

/-- Longest leading run of decimal digits, as digit values plus the rest. -/
def takeDigits : Str → List Nat × Str
  | [] => ([], [])
  | c :: rest =>
    if c.isDigit then
      let (ds, r) := takeDigits rest
      ((c.toNat - '0'.toNat) :: ds, r)
    else ([], c :: rest)

/-- Value of a digit-value list read most-significant first. -/
def natOfDigits (ds : List Nat) : Nat := ds.foldl (fun a d => a * 10 + d) 0

/-- Consume one optional leading sign; `true` means negative. -/
def scanSign : Str → Bool × Str
  | '+' :: r => (false, r)
  | '-' :: r => (true, r)
  | s => (false, s)

/-- The C whitespace class skipped by `%d`/`%g` conversions. -/
def isCSpace (c : Char) : Bool :=
  c = ' ' || c = '\t' || c = '\n' || c = '\r' || c = '\x0b' || c = '\x0c'

/-- `sscanf` `%d` conversion: skip whitespace, optional sign, one or more
digits; `none` when the conversion fails. -/
def scanInt (s : Str) : Option (Int × Str) :=
  let s1 := s.dropWhile isCSpace
  let (neg, s2) := scanSign s1
  let (ds, s3) := takeDigits s2
  if ds.isEmpty then none
  else some (if neg then -(natOfDigits ds : Int) else (natOfDigits ds : Int), s3)

/-- `sscanf(s, "%d<sep>%d", &a, &b)` succeeding with conversion count 2: both
integers parse and the literal separator matches the very next character. -/
def scanIntPairSep (sep : Char) (s : Str) : Option (Int × Int) :=
  match scanInt s with
  | none => none
  | some (a, r) =>
    match r with
    | [] => none
    | c :: r2 =>
      if c = sep then
        match scanInt r2 with
        | none => none
        | some (b, _) => some (a, b)
      else none

/-- Value of a fractional digit string (the part after the decimal point). -/
def fracValue (ds : List Nat) : ℚ := ds.foldr (fun d a => ((d : ℚ) + a) / 10) 0

/-- Optional exponent part `eN`/`EN` of a `%g` conversion; a bare `e` without
digits is left unconsumed with exponent 0. -/
def scanExpPart : Str → ℤ × Str
  | [] => (0, [])
  | c :: r =>
    if c = 'e' || c = 'E' then
      let (neg, r2) := scanSign r
      let (ds, r3) := takeDigits r2
      if ds.isEmpty then (0, c :: r)
      else (if neg then -(natOfDigits ds : ℤ) else (natOfDigits ds : ℤ), r3)
    else (0, c :: r)

/-- `sscanf` `%g` conversion, modelled over exact rationals: skip whitespace,
optional sign, decimal mantissa (digits, with an optional point and fraction),
optional exponent.  `none` when no valid mantissa is present (e.g. on a bare
`"."`). -/
def scanFloat (s : Str) : Option (ℚ × Str) :=
  let s1 := s.dropWhile isCSpace
  let (neg, s2) := scanSign s1
  let (ip, s3) := takeDigits s2
  let core : Option (ℚ × Str) :=
    match s3 with
    | '.' :: s4 =>
      let (fp, s5) := takeDigits s4
      if ip.isEmpty && fp.isEmpty then none
      else some ((natOfDigits ip : ℚ) + fracValue fp, s5)
    | _ =>
      if ip.isEmpty then none else some ((natOfDigits ip : ℚ), s3)
  match core with
  | none => none
  | some (m, s6) =>
    let (e, s7) := scanExpPart s6
    some ((if neg then -m else m) * (10 : ℚ) ^ e, s7)

/-- `sscanf(s, "%g,%g,%g", ...)` succeeding with conversion count 3. -/
def scanFloat3 (s : Str) : Option (ℚ × ℚ × ℚ) :=
  match scanFloat s with
  | none => none
  | some (a, r1) =>
    match r1 with
    | ',' :: r2 =>
      match scanFloat r2 with
      | none => none
      | some (b, r3) =>
        match r3 with
        | ',' :: r4 =>
          match scanFloat r4 with
          | none => none
          | some (c, _) => some (a, b, c)
        | _ => none
    | _ => none

/-- `get_format_index` (vcf.c lines 74-97): index of the first `:`-separated
token of `format_str` equal to `label`; `none` models the C return value
`-1`.  (The C function tokenizes a private copy of `format_str`.) -/
def get_format_index (format_str label : Str) : Option Nat :=
  (strsepSplit isColon format_str).findIdx? (fun t => t = label)

/-- The `"GT"` tag. -/
def gtLabel : Str := "GT".toList

/-- The `"GL"` tag. -/
def glLabel : Str := "GL".toList

/-- The literal missing marker `"."`. -/
def dotTok : Str := ".".toList

/-- One `my_warn` call site of vcf.c. -/
inductive Warn where
  /-- header fixed-column name mismatch (line 51) -/
  | headerName
  /-- allele truncated to fit bounded storage (lines 335, 349) -/
  | truncAllele
  /-- one-shot "some genotypes are unphased" notice (line 139) -/
  | unphased
  /-- "could not parse genotype string" (line 144) -/
  | badGT
deriving DecidableEq, Repr

/-- One `my_err` (fatal) call site of vcf.c. -/
inductive Err where
  /-- end of stream before the header's `#CHROM` line (line 33) -/
  | headerEOF
  /-- header line neither `##`-meta nor `#CHROM` (line 60) -/
  | headerBadLine
  /-- a data line missing one of the 9 fixed tokens (line 306 etc.) -/
  | missingFixedToken
  /-- format string does not specify `GT` (line 113) -/
  | noGT
  /-- more genotypes per line than expected (line 164) -/
  | hapOverrun
  /-- genotype-count mismatch at end of line (line 178) -/
  | hapCount
  /-- format string does not specify `GL` (line 200) -/
  | noGL
  /-- failed to parse genotype likelihoods (line 226) -/
  | badGL
  /-- more genotype likelihoods per line than expected (line 237) -/
  | glOverrun
  /-- likelihood-count mismatch at end of line (line 263) -/
  | glCount
  /-- `strlen(NULL)` in the dual-decoder tail copy (line 393, undefined
  behaviour when the line has exactly 9 tokens) -/
  | nullDeref
deriving DecidableEq, Repr

/-- vcf.c lines 133-148: try `sscanf "%d|%d"`, then `sscanf "%d/%d"`.  On a
successful `/`-parse with the one-shot flag still set, keep the parsed pair,
emit the unphased notice and clear the flag; otherwise (including a
successful `/`-parse with the flag already cleared) emit the could-not-parse
warning and set both alleles to `MISSING`.  Result:
`((hap1, hap2), warnings, warn_phase)`. -/
def parseGT (warn_phase : Bool) (inner_tok : Str) : (Int × Int) × List Warn × Bool :=
  match scanIntPairSep '|' inner_tok with
  | some (h1, h2) => ((h1, h2), [], warn_phase)
  | none =>
    match scanIntPairSep '/' inner_tok with
    | some (h1, h2) =>
      if warn_phase then ((h1, h2), [Warn.unphased], false)
      else ((VCF_GTYPE_MISSING, VCF_GTYPE_MISSING), [Warn.badGT], warn_phase)
    | none => ((VCF_GTYPE_MISSING, VCF_GTYPE_MISSING), [Warn.badGT], warn_phase)

/-- vcf.c lines 151-161: allele values outside `{MISSING, 0, 1}` force both
alleles of the sample to `MISSING` (no warning is emitted here). -/
def rangeCheck (p : Int × Int) : Int × Int :=
  if (p.1 ≠ VCF_GTYPE_MISSING ∧ p.1 ≠ 0 ∧ p.1 ≠ 1) ∨
     (p.2 ≠ VCF_GTYPE_MISSING ∧ p.2 ≠ 0 ∧ p.2 ≠ 1)
  then (VCF_GTYPE_MISSING, VCF_GTYPE_MISSING) else p

/-- Processing of one extracted `GT` subfield (parse then range check). -/
def gtSample (warn_phase : Bool) (inner_tok : Str) : (Int × Int) × List Warn × Bool :=
  let r := parseGT warn_phase inner_tok
  (rangeCheck r.1, r.2.1, r.2.2)

/-- Outcome of `parse_haplotypes`: the written haplotype array, the warnings
emitted, and the final value of the `static int warn_phase` flag. -/
structure HapResult where
  haps : List Int
  warns : List Warn
  warn_phase : Bool
deriving DecidableEq, Repr

/-- The sample loop of `parse_haplotypes` (vcf.c lines 122-180).  Each token
is copied into the bounded `gt_str` buffer (capacity `cap`); the inner loop
reaches the `idx`-th `:`-subfield only if that many subfields exist, writing
two alleles with the overrun check, and otherwise writes nothing for that
token.  At end of tokens the written count must equal `expect`. -/
def hapGo (cap idx expect : Nat) :
    List Str → Bool → List Int → List Warn → Except Err HapResult
  | [], wp, acc, ws =>
    if acc.length = expect then .ok ⟨acc, ws, wp⟩ else .error .hapCount
  | tok :: rest, wp, acc, ws =>
    match (strsepSplit isColon (util_strncpy cap tok))[idx]? with
    | none => hapGo cap idx expect rest wp acc ws
    | some ft =>
      let r := gtSample wp ft
      if acc.length + 2 > expect then .error .hapOverrun
      else hapGo cap idx expect rest r.2.2 (acc ++ [r.1.1, r.1.2]) (ws ++ r.2.1)

/-- `parse_haplotypes` (vcf.c lines 100-181).  `cap` is `VCF_MAX_FORMAT`
(vcf.h is not part of this tree); `cur` is the `strsep` cursor over the sample
tail (`none` = `NULL`); `warn_phase` is the incoming value of the static
flag. -/
def parse_haplotypes (cap : Nat) (format : Str) (n_samples : Nat)
    (warn_phase : Bool) (cur : Option Str) : Except Err HapResult :=
  match get_format_index format gtLabel with
  | none => .error .noGT
  | some gt_idx =>
    hapGo cap gt_idx (2 * n_samples) (tokensOf isLineDelim cur) warn_phase [] []

/-- vcf.c lines 216-229: a `GL` subfield either parses as three
comma-separated `%g` values, or is the literal `"."` (mapped to the uniform
log-likelihood triplet `-0.477`), or is fatal. -/
def parseGL (inner_tok : Str) : Except Err (ℚ × ℚ × ℚ) :=
  match scanFloat3 inner_tok with
  | some t => .ok t
  | none =>
    if inner_tok = dotTok then .ok (-477/1000, -477/1000, -477/1000)
    else .error .badGL

/-- vcf.c lines 232-249: convert three log10 likelihoods to linear scale via
`pow10` (modelling libm `pow(10.0, ·)`) and renormalize them to sum to 1. -/
def normalize3 (pow10 : ℚ → ℚ) (l : ℚ × ℚ × ℚ) : ℚ × ℚ × ℚ :=
  let p1 := pow10 l.1
  let p2 := pow10 l.2.1
  let p3 := pow10 l.2.2
  let s := p1 + p2 + p3
  (p1 / s, p2 / s, p3 / s)

/-- The sample loop of `parse_geno_probs` (vcf.c lines 206-260): same
subfield-extraction scheme as `hapGo`, three entries per sample, with the
fatal unparseable-`GL` path and the overrun check. -/
def glGo (pow10 : ℚ → ℚ) (cap idx expect : Nat) :
    List Str → List ℚ → Except Err (List ℚ)
  | [], acc => if acc.length = expect then .ok acc else .error .glCount
  | tok :: rest, acc =>
    match (strsepSplit isColon (util_strncpy cap tok))[idx]? with
    | none => glGo pow10 cap idx expect rest acc
    | some ft =>
      match parseGL ft with
      | .error e => .error e
      | .ok l =>
        if acc.length + 3 > expect then .error .glOverrun
        else
          let t := normalize3 pow10 l
          glGo pow10 cap idx expect rest (acc ++ [t.1, t.2.1, t.2.2])

/-- `parse_geno_probs` (vcf.c lines 185-267). -/
def parse_geno_probs (pow10 : ℚ → ℚ) (cap : Nat) (format : Str)
    (n_samples : Nat) (cur : Option Str) : Except Err (List ℚ) :=
  match get_format_index format glLabel with
  | none => .error .noGL
  | some gl_idx =>
    glGo pow10 cap gl_idx (3 * n_samples) (tokensOf isLineDelim cur) []

/-- `vcf_fix_headers` (vcf.c lines 13-15). -/
def vcf_fix_headers : List Str :=
  ["#CHROM", "POS", "ID", "REF", "ALT", "QUAL", "FILTER", "INFO", "FORMAT"].map
    String.toList

/-- The warnings of the `#CHROM`-line token check (vcf.c lines 48-56): one
warning per position below 9 whose token differs from the fixed name. -/
def headerNameWarns (toks : List Str) : List Warn :=
  (toks.zip vcf_fix_headers).filterMap
    (fun p => if p.1 = p.2 then none else some Warn.headerName)

/-- Outcome of `vcf_read_header`. -/
structure HeaderResult where
  n_header_lines : Nat
  n_samples : Int
  warns : List Warn
deriving DecidableEq, Repr

/-- The header loop of `vcf_read_header` (vcf.c lines 29-63) over the stream's
remaining lines (`[]` models `util_gzgets_line` returning `NULL`), with the
running `n_header_lines` count. -/
def readHeaderGo : List Str → Nat → Except Err HeaderResult
  | [], _ => .error .headerEOF
  | line :: rest, nhl =>
    if util_str_starts_with line ("##".toList) then
      readHeaderGo rest (nhl + 1)
    else if util_str_starts_with line ("#CHROM".toList) then
      let toks := strsepSplit isLineDelim line
      .ok ⟨nhl + 1, (toks.length : Int) - 9, headerNameWarns toks⟩
    else .error .headerBadLine

/-- `vcf_read_header` (vcf.c lines 19-64): the sample count is the `#CHROM`
line's token count minus the 9 fixed header names. -/
def vcf_read_header (lines : List Str) : Except Err HeaderResult :=
  readHeaderGo lines 0

/-- Modelled from the spec: the bounded-buffer capacities of the `VCFInfo`
string fields (`VCF_MAX_CHROM` etc. live in vcf.h, which is not part of this
tree; the spec only says the fields are bounded strings). -/
structure VCFCaps where
  chromCap : Nat
  idCap : Nat
  alleleCap : Nat
  qualCap : Nat
  filterCap : Nat
  infoCap : Nat
  formatCap : Nat
deriving Repr

/-- Modelled from the spec: `util_parse_long` from the missing util.c (generic
numeric parsing): scanf-style decimal with optional sign; unparseable input is
modelled as 0. -/
def util_parse_long (s : Str) : Int := ((scanInt s).map Prod.fst).getD 0

/-- The per-line fields of `VCFInfo` written by `vcf_read_line` (the
`VariantRecord` of the spec). -/
structure VariantRecord where
  chrom : Str
  pos : Int
  id : Str
  ref_allele : Str
  ref_len : Nat
  alt_allele : Str
  alt_len : Nat
  qual : Str
  filter : Str
  info : Str
  format : Str
deriving DecidableEq, Repr

/-- Everything produced by one successful `vcf_read_line` call on a data
line.  `ret` is the C return value executed on this path: `none` means
control fell off the end of the function without a `return` statement. -/
structure LineOut where
  info : VariantRecord
  warns : List Warn
  probs : Option (List ℚ)
  haps : Option (List Int)
  warn_phase : Bool
  ret : Option Int
deriving DecidableEq, Repr

/-- Result of `vcf_read_line`: either the end-of-stream return (`return -1`)
or a decoded line. -/
inductive ReadResult where
  | eof (ret : Int)
  | line (out : LineOut)
deriving DecidableEq, Repr

/-- One fixed-column `strsep` extraction of `vcf_read_line` with its
`token == NULL` fatal check (vcf.c lines 304-307 and the 8 analogous sites). -/
def nextTok (st : Option Str) : Except Err (Str × Option Str) :=
  match strsepStep isLineDelim st with
  | (none, _) => .error .missingFixedToken
  | (some t, st') => .ok (t, st')

/-- `vcf_read_line` (vcf.c lines 284-405).  `line?` is the result of
`util_gzgets_line` (`none` = `NULL` = end of stream); `wantProbs`/`wantHaps`
model the null-ness of the `geno_probs`/`haplotypes` output arrays;
`warn_phase` is the incoming static flag of `parse_haplotypes`. -/
def vcf_read_line (caps : VCFCaps) (pow10 : ℚ → ℚ) (n_samples : Nat)
    (warn_phase : Bool) (wantProbs wantHaps : Bool) (line? : Option Str) :
    Except Err ReadResult :=
  match line? with
  | none => .ok (.eof (-1))
  | some line => do
    let (chromTok, st1) ← nextTok (some line)
    let (posTok, st2) ← nextTok st1
    let (idTok, st3) ← nextTok st2
    let (refTok, st4) ← nextTok st3
    let (altTok, st5) ← nextTok st4
    let (qualTok, st6) ← nextTok st5
    let (filterTok, st7) ← nextTok st6
    let (infoTok, st8) ← nextTok st7
    let (fmtTok, st9) ← nextTok st8
    let refStored := util_strncpy caps.alleleCap refTok
    let altStored := util_strncpy caps.alleleCap altTok
    let w1 : List Warn :=
      if refStored.length ≠ refTok.length then [Warn.truncAllele] else []
    let w2 : List Warn :=
      if altStored.length ≠ altTok.length then [Warn.truncAllele] else []
    let rcd : VariantRecord :=
      ⟨util_strncpy caps.chromCap chromTok, util_parse_long posTok,
       util_strncpy caps.idCap idTok,
       refStored, refTok.length, altStored, altTok.length,
       util_strncpy caps.qualCap qualTok,
       util_strncpy caps.filterCap filterTok,
       util_strncpy caps.infoCap infoTok,
       util_strncpy caps.formatCap fmtTok⟩
    if wantProbs ∧ wantHaps then
      match st9 with
      | none => .error .nullDeref
      | some tail => do
        let probs ← parse_geno_probs pow10 caps.formatCap rcd.format n_samples
            (some tail)
        let hr ← parse_haplotypes caps.formatCap rcd.format n_samples warn_phase
            (some tail)
        .ok (.line ⟨rcd, w1 ++ w2 ++ hr.warns, some probs, some hr.haps,
          hr.warn_phase, none⟩)
    else if wantProbs then do
      let probs ← parse_geno_probs pow10 caps.formatCap rcd.format n_samples st9
      .ok (.line ⟨rcd, w1 ++ w2, some probs, none, warn_phase, none⟩)
    else if wantHaps then do
      let hr ← parse_haplotypes caps.formatCap rcd.format n_samples warn_phase st9
      .ok (.line ⟨rcd, w1 ++ w2 ++ hr.warns, none, some hr.haps,
        hr.warn_phase, none⟩)
    else
      .ok (.line ⟨rcd, w1 ++ w2, none, none, warn_phase, none⟩)

end WASP

namespace WASP

/-- Decidable equality for `Except` results, so concrete decoder runs can be
settled by `decide`. -/
instance instDecEqExcept {ε α : Type} [DecidableEq ε] [DecidableEq α] :
    DecidableEq (Except ε α) := fun x y =>
  match x, y with
  | .error a, .error b =>
    if h : a = b then isTrue (by rw [h])
    else isFalse (fun hc => h (Except.error.inj hc))
  | .ok a, .ok b =>
    if h : a = b then isTrue (by rw [h])
    else isFalse (fun hc => h (Except.ok.inj hc))
  | .error _, .ok _ => isFalse (fun hc => Except.noConfusion hc)
  | .ok _, .error _ => isFalse (fun hc => Except.noConfusion hc)

/-- The sample tokens that reach the resolved subfield index and therefore
write entries into the output array. -/
def writingCount (cap idx : Nat) (toks : List Str) : Nat :=
  toks.countP (fun t => decide (idx < (strsepSplit isColon (util_strncpy cap t)).length))

/-- A sample token whose `GL` subfield (when it is reached at all) parses
successfully — i.e. the token does not trigger the fatal unparseable-`GL`
error. -/
def glParses (cap idx : Nat) (t : Str) : Bool :=
  match (strsepSplit isColon (util_strncpy cap t))[idx]? with
  | none => true
  | some ft =>
    match parseGL ft with
    | .ok _ => true
    | .error _ => false

/-- The output array, read three entries at a time, holds values in `[0, 1]`
whose per-sample sum is exactly 1. -/
def goodTriples : List ℚ → Prop
  | [] => True
  | a :: b :: c :: rest =>
    (0 ≤ a ∧ a ≤ 1 ∧ 0 ≤ b ∧ b ≤ 1 ∧ 0 ≤ c ∧ c ≤ 1 ∧ a + b + c = 1) ∧
      goodTriples rest
  | _ => False

/-- Capacities with a small (3-byte) allele buffer, line and witness data for
the truncation claim. -/
def caps7 : VCFCaps := ⟨1024, 1024, 3, 1024, 1024, 1024, 1024⟩

/-- A data line whose ref allele (`AAAA`) overflows a 3-byte allele buffer. -/
def c7line : Str := "1 5 rs AAAA T 9 P . GT".toList

/-! ## Concrete inputs used by the claim theorems -/

/-- All `VCFInfo` buffer capacities set to 1024. -/
def caps1024 : VCFCaps := ⟨1024, 1024, 1024, 1024, 1024, 1024, 1024⟩

/-- A trivial positive instantiation of the abstract `pow(10.0, ·)`. -/
def pow10one : ℚ → ℚ := fun _ => 1

/-- A well-formed data line with one sample whose genotype is unphased. -/
def c2line : Str := "1 100 rs1 A T 50 PASS . GT 0/1".toList

/-- The fixed fields decoded from `c2line` / `c8line`. -/
def c2rec : VariantRecord :=
  ⟨"1".toList, 100, "rs1".toList, "A".toList, 1, "T".toList, 1,
   "50".toList, "PASS".toList, ".".toList, "GT".toList⟩

/-- Output of the first decode of `c2line` (fresh run, `warn_phase` set). -/
def c2out1 : LineOut := ⟨c2rec, [Warn.unphased], none, some [0, 1], false, none⟩

/-- Output of the second decode of `c2line` (flag now cleared). -/
def c2out2 : LineOut := ⟨c2rec, [Warn.badGT], none, some [-1, -1], false, none⟩

/-- A well-formed data line with zero samples. -/
def c8line : Str := "1 100 rs1 A T 50 PASS . GT".toList

/-- C1: on a fresh run (`warn_phase` set), a tail with two unphased samples
`0/1 1/0` decodes the first pair as `(0, 1)` with the one-shot unphased
notice, but the second unphased pair — though it parses as `(1, 0)` — is
stored as `(MISSING, MISSING)` with a spurious could-not-parse warning,
because the code re-enters the unparseable branch once `warn_phase` is
cleared.  This contradicts the claim that every unphased occurrence decodes
like the phased form and that MISSING is stored only when neither pattern
parses. -/
theorem C1_second_unphased_becomes_missing :
    parse_haplotypes 1024 gtLabel 2 true (some ("0/1 1/0".toList)) =
      .ok ⟨[0, 1, -1, -1], [Warn.unphased, Warn.badGT], false⟩ := by decide

/-- C2: decoding the identical data line `c2line` twice (fresh copies of the
line buffer, same header) does not give bit-identical outputs: the first call
decodes the unphased genotype as `(0, 1)` and clears the static `warn_phase`
flag, whereupon the second call stores `(MISSING, MISSING)` for the same
sample; the haplotype arrays of the two calls differ. -/
theorem C2_second_decode_differs :
    vcf_read_line caps1024 pow10one 1 true false true (some c2line) =
      .ok (.line c2out1) ∧
    vcf_read_line caps1024 pow10one 1 c2out1.warn_phase false true
      (some c2line) = .ok (.line c2out2) ∧
    c2out1.haps ≠ c2out2.haps := by decide

/-- C4 counterexample: the phased non-binary pair `2|3` is coerced to
`(MISSING, MISSING)` with an *empty* warning list (the range-check block of
vcf.c lines 151-161 contains no `my_warn` call), refuting the claim that a
warning is emitted whenever a parsed allele pair contains a value outside
`{0, 1, MISSING}`. -/
theorem C4_counterexample_silent_coercion :
    parse_haplotypes 1024 gtLabel 1 true (some ("2|3".toList)) =
      .ok ⟨[-1, -1], [], true⟩ := by decide

/-- C8: at end of stream `vcf_read_line` executes `return -1`, but on the
successfully-decoded data line `c8line` control falls off the end of the
function without any `return` statement (`ret = none` in the model), so the
function does not return the documented success value 0. -/
theorem C8_eof_sentinel_but_no_success_return :
    vcf_read_line caps1024 pow10one 0 true false false none =
      .ok (.eof (-1)) ∧
    vcf_read_line caps1024 pow10one 0 true false false (some c8line) =
      .ok (.line ⟨c2rec, [], none, none, true, none⟩) := by decide

end WASP

namespace WASP

/-! ## Tokenizer lemmas -/

/-- Unfolding of `strsepSplit` by the position of the first delimiter. -/
theorem strsepSplit_splitFirst (d : Char → Bool) (s : Str) :
    strsepSplit d s =
      match splitFirst d s with
      | none => [s]
      | some (b, a) => b :: strsepSplit d a := by
  induction s with
  | nil => rfl
  | cons c rest ih =>
    by_cases hd : d c
    · simp [strsepSplit, splitFirst, hd]
    · simp only [strsepSplit, splitFirst, hd, Bool.false_eq_true, if_false]
      cases hsf : splitFirst d rest with
      | none => rw [ih, hsf]; rfl
      | some p => rw [ih, hsf]; cases p; rfl

/-- A nonempty token sequence determines the first `strsep` call: it returns
the head token, and the remaining cursor state carries exactly the tail. -/
theorem nextTok_of_tokens (st : Option Str) (t : Str) (rest : List Str)
    (h : tokensOf isLineDelim st = t :: rest) :
    ∃ st', nextTok st = .ok (t, st') ∧ tokensOf isLineDelim st' = rest := by
  cases st with
  | none => simp [tokensOf] at h
  | some s =>
    have hs : strsepSplit isLineDelim s = t :: rest := h
    rw [strsepSplit_splitFirst] at hs
    cases hsf : splitFirst isLineDelim s with
    | none =>
      rw [hsf] at hs
      simp only [List.cons.injEq] at hs
      obtain ⟨hst, hrest⟩ := hs
      subst hst
      refine ⟨none, ?_, ?_⟩
      · simp [nextTok, strsepStep, hsf]
      · simpa [tokensOf] using hrest
    | some p =>
      obtain ⟨b, a⟩ := p
      rw [hsf] at hs
      simp only [List.cons.injEq] at hs
      refine ⟨some a, ?_, ?_⟩
      · simp [nextTok, strsepStep, hsf, hs.1]
      · simpa [tokensOf] using hs.2

/-- `Except` bind on a success value. -/
theorem exbind_ok {ε α β : Type} (a : α) (f : α → Except ε β) :
    (Except.ok (ε := ε) a >>= f) = f a := rfl

/-! ## Entry-count bookkeeping for the two sample decoders -/

/-- Head unfolding of `writingCount`. -/
theorem writingCount_cons (cap idx : Nat) (tok : Str) (rest : List Str) :
    writingCount cap idx (tok :: rest) =
      writingCount cap idx rest +
        if idx < (strsepSplit isColon (util_strncpy cap tok)).length then 1
        else 0 := by
  simp [writingCount, List.countP_cons]

/-- When the written count plus the pending writes meet `expect` exactly, the
haplotype sample loop succeeds and the final array length is `expect`. -/
theorem hapGo_exact (cap idx expect : Nat) :
    ∀ toks wp acc ws, acc.length + 2 * writingCount cap idx toks = expect →
      ∃ hr, hapGo cap idx expect toks wp acc ws = .ok hr ∧
        hr.haps.length = expect := by
  intro toks
  induction toks with
  | nil =>
    intro wp acc ws h
    simp only [writingCount, List.countP_nil, Nat.mul_zero, Nat.add_zero] at h
    exact ⟨⟨acc, ws, wp⟩, by simp [hapGo, h], h⟩
  | cons tok rest ih =>
    intro wp acc ws h
    rw [writingCount_cons] at h
    by_cases hlt : idx < (strsepSplit isColon (util_strncpy cap tok)).length
    · obtain ⟨ft, hft⟩ : ∃ ft,
          (strsepSplit isColon (util_strncpy cap tok))[idx]? = some ft :=
        ⟨_, List.getElem?_eq_getElem hlt⟩
      rw [if_pos hlt] at h
      have hrec := ih (gtSample wp ft).2.2
        (acc ++ [(gtSample wp ft).1.1, (gtSample wp ft).1.2])
        (ws ++ (gtSample wp ft).2.1)
        (by simp only [List.length_append, List.length_cons, List.length_nil]
            omega)
      obtain ⟨hr, hrun, hlen⟩ := hrec
      refine ⟨hr, ?_, hlen⟩
      simp only [hapGo, hft]
      rw [if_neg (by omega)]
      exact hrun
    · rw [if_neg hlt] at h
      have hnone : (strsepSplit isColon (util_strncpy cap tok))[idx]? = none :=
        List.getElem?_eq_none (by omega)
      obtain ⟨hr, hrun, hlen⟩ := ih wp acc ws (by omega)
      exact ⟨hr, by simpa [hapGo, hnone] using hrun, hlen⟩

/-- When fewer writes than `expect` arrive by end of tokens, the haplotype
sample loop raises the count-mismatch fatal error. -/
theorem hapGo_under (cap idx expect : Nat) :
    ∀ toks wp acc ws, acc.length + 2 * writingCount cap idx toks < expect →
      hapGo cap idx expect toks wp acc ws = .error .hapCount := by
  intro toks
  induction toks with
  | nil =>
    intro wp acc ws h
    simp only [writingCount, List.countP_nil, Nat.mul_zero, Nat.add_zero] at h
    simp [hapGo, Nat.ne_of_lt h]
  | cons tok rest ih =>
    intro wp acc ws h
    rw [writingCount_cons] at h
    by_cases hlt : idx < (strsepSplit isColon (util_strncpy cap tok)).length
    · obtain ⟨ft, hft⟩ : ∃ ft,
          (strsepSplit isColon (util_strncpy cap tok))[idx]? = some ft :=
        ⟨_, List.getElem?_eq_getElem hlt⟩
      rw [if_pos hlt] at h
      simp only [hapGo, hft]
      rw [if_neg (by omega)]
      exact ih _ _ _
        (by simp only [List.length_append, List.length_cons, List.length_nil]
            omega)
    · rw [if_neg hlt] at h
      have hnone : (strsepSplit isColon (util_strncpy cap tok))[idx]? = none :=
        List.getElem?_eq_none (by omega)
      simpa [hapGo, hnone] using ih wp acc ws (by omega)

/-- When the pending writes would pass `expect`, the haplotype sample loop
raises the more-genotypes-than-expected fatal error at the crossing write. -/
theorem hapGo_over (cap idx expect : Nat) :
    ∀ toks wp acc ws, acc.length ≤ expect →
      expect < acc.length + 2 * writingCount cap idx toks →
      hapGo cap idx expect toks wp acc ws = .error .hapOverrun := by
  intro toks
  induction toks with
  | nil =>
    intro wp acc ws hle h
    simp only [writingCount, List.countP_nil, Nat.mul_zero, Nat.add_zero] at h
    omega
  | cons tok rest ih =>
    intro wp acc ws hle h
    rw [writingCount_cons] at h
    by_cases hlt : idx < (strsepSplit isColon (util_strncpy cap tok)).length
    · obtain ⟨ft, hft⟩ : ∃ ft,
          (strsepSplit isColon (util_strncpy cap tok))[idx]? = some ft :=
        ⟨_, List.getElem?_eq_getElem hlt⟩
      rw [if_pos hlt] at h
      simp only [hapGo, hft]
      by_cases hover : acc.length + 2 > expect
      · rw [if_pos hover]
      · rw [if_neg hover]
        exact ih _ _ _
          (by simp only [List.length_append, List.length_cons, List.length_nil]
              omega)
          (by simp only [List.length_append, List.length_cons, List.length_nil]
              omega)
    · rw [if_neg hlt] at h
      have hnone : (strsepSplit isColon (util_strncpy cap tok))[idx]? = none :=
        List.getElem?_eq_none (by omega)
      simpa [hapGo, hnone] using ih wp acc ws hle (by omega)

end WASP

namespace WASP

/-- When the written count plus the pending writes meet `expect` exactly and
every reached `GL` subfield parses, the likelihood sample loop succeeds and
the final array length is `expect`. -/
theorem glGo_exact (pow10 : ℚ → ℚ) (cap idx expect : Nat) :
    ∀ toks acc, (∀ t ∈ toks, glParses cap idx t = true) →
      acc.length + 3 * writingCount cap idx toks = expect →
      ∃ ps, glGo pow10 cap idx expect toks acc = .ok ps ∧
        ps.length = expect := by
  intro toks
  induction toks with
  | nil =>
    intro acc _ h
    simp only [writingCount, List.countP_nil, Nat.mul_zero, Nat.add_zero] at h
    exact ⟨acc, by simp [glGo, h], h⟩
  | cons tok rest ih =>
    intro acc hok h
    rw [writingCount_cons] at h
    by_cases hlt : idx < (strsepSplit isColon (util_strncpy cap tok)).length
    · obtain ⟨ft, hft⟩ : ∃ ft,
          (strsepSplit isColon (util_strncpy cap tok))[idx]? = some ft :=
        ⟨_, List.getElem?_eq_getElem hlt⟩
      rw [if_pos hlt] at h
      have hp := hok tok (List.mem_cons_self tok rest)
      rw [glParses, hft] at hp
      replace hp : (match parseGL ft with
        | .ok _ => true
        | .error _ => false) = true := hp
      cases hgl : parseGL ft with
      | error e => rw [hgl] at hp; exact Bool.noConfusion hp
      | ok l =>
        obtain ⟨ps, hrun, hlen⟩ := ih
          (acc ++ [(normalize3 pow10 l).1, (normalize3 pow10 l).2.1,
            (normalize3 pow10 l).2.2])
          (fun t ht => hok t (List.mem_cons_of_mem tok ht))
          (by simp only [List.length_append, List.length_cons, List.length_nil]
              omega)
        refine ⟨ps, ?_, hlen⟩
        simp only [glGo, hft, hgl]
        rw [if_neg (by omega)]
        exact hrun
    · rw [if_neg hlt] at h
      have hnone : (strsepSplit isColon (util_strncpy cap tok))[idx]? = none :=
        List.getElem?_eq_none (by omega)
      obtain ⟨ps, hrun, hlen⟩ := ih acc
        (fun t ht => hok t (List.mem_cons_of_mem tok ht)) (by omega)
      exact ⟨ps, by simpa [glGo, hnone] using hrun, hlen⟩

/-- When fewer writes than `expect` arrive by end of tokens and every reached
`GL` subfield parses, the likelihood sample loop raises the count-mismatch
fatal error. -/
theorem glGo_under (pow10 : ℚ → ℚ) (cap idx expect : Nat) :
    ∀ toks acc, (∀ t ∈ toks, glParses cap idx t = true) →
      acc.length + 3 * writingCount cap idx toks < expect →
      glGo pow10 cap idx expect toks acc = .error .glCount := by
  intro toks
  induction toks with
  | nil =>
    intro acc _ h
    simp only [writingCount, List.countP_nil, Nat.mul_zero, Nat.add_zero] at h
    simp [glGo, Nat.ne_of_lt h]
  | cons tok rest ih =>
    intro acc hok h
    rw [writingCount_cons] at h
    by_cases hlt : idx < (strsepSplit isColon (util_strncpy cap tok)).length
    · obtain ⟨ft, hft⟩ : ∃ ft,
          (strsepSplit isColon (util_strncpy cap tok))[idx]? = some ft :=
        ⟨_, List.getElem?_eq_getElem hlt⟩
      rw [if_pos hlt] at h
      have hp := hok tok (List.mem_cons_self tok rest)
      rw [glParses, hft] at hp
      replace hp : (match parseGL ft with
        | .ok _ => true
        | .error _ => false) = true := hp
      cases hgl : parseGL ft with
      | error e => rw [hgl] at hp; exact Bool.noConfusion hp
      | ok l =>
        simp only [glGo, hft, hgl]
        rw [if_neg (by omega)]
        exact ih _ (fun t ht => hok t (List.mem_cons_of_mem tok ht))
          (by simp only [List.length_append, List.length_cons, List.length_nil]
              omega)
    · rw [if_neg hlt] at h
      have hnone : (strsepSplit isColon (util_strncpy cap tok))[idx]? = none :=
        List.getElem?_eq_none (by omega)
      simpa [glGo, hnone] using
        ih acc (fun t ht => hok t (List.mem_cons_of_mem tok ht)) (by omega)

/-- When the pending writes would pass `expect` and every reached `GL`
subfield parses, the likelihood sample loop raises the
more-likelihoods-than-expected fatal error at the crossing write. -/
theorem glGo_over (pow10 : ℚ → ℚ) (cap idx expect : Nat) :
    ∀ toks acc, (∀ t ∈ toks, glParses cap idx t = true) →
      acc.length ≤ expect →
      expect < acc.length + 3 * writingCount cap idx toks →
      glGo pow10 cap idx expect toks acc = .error .glOverrun := by
  intro toks
  induction toks with
  | nil =>
    intro acc _ hle h
    simp only [writingCount, List.countP_nil, Nat.mul_zero, Nat.add_zero] at h
    omega
  | cons tok rest ih =>
    intro acc hok hle h
    rw [writingCount_cons] at h
    by_cases hlt : idx < (strsepSplit isColon (util_strncpy cap tok)).length
    · obtain ⟨ft, hft⟩ : ∃ ft,
          (strsepSplit isColon (util_strncpy cap tok))[idx]? = some ft :=
        ⟨_, List.getElem?_eq_getElem hlt⟩
      rw [if_pos hlt] at h
      have hp := hok tok (List.mem_cons_self tok rest)
      rw [glParses, hft] at hp
      replace hp : (match parseGL ft with
        | .ok _ => true
        | .error _ => false) = true := hp
      cases hgl : parseGL ft with
      | error e => rw [hgl] at hp; exact Bool.noConfusion hp
      | ok l =>
        simp only [glGo, hft, hgl]
        by_cases hover : acc.length + 3 > expect
        · rw [if_pos hover]
        · rw [if_neg hover]
          exact ih _ (fun t ht => hok t (List.mem_cons_of_mem tok ht))
            (by simp only [List.length_append, List.length_cons,
                  List.length_nil]
                omega)
            (by simp only [List.length_append, List.length_cons,
                  List.length_nil]
                omega)
    · rw [if_neg hlt] at h
      have hnone : (strsepSplit isColon (util_strncpy cap tok))[idx]? = none :=
        List.getElem?_eq_none (by omega)
      simpa [glGo, hnone] using
        ih acc (fun t ht => hok t (List.mem_cons_of_mem tok ht)) hle (by omega)

/-! ## Probability-triplet invariants (for C3) -/

/-- Renormalization with a positive conversion function lands every component
in `[0, 1]` and makes the components sum to exactly 1. -/
theorem normalize3_good (pow10 : ℚ → ℚ) (hpos : ∀ x, 0 < pow10 x)
    (l : ℚ × ℚ × ℚ) :
    (0 ≤ (normalize3 pow10 l).1 ∧ (normalize3 pow10 l).1 ≤ 1 ∧
     0 ≤ (normalize3 pow10 l).2.1 ∧ (normalize3 pow10 l).2.1 ≤ 1 ∧
     0 ≤ (normalize3 pow10 l).2.2 ∧ (normalize3 pow10 l).2.2 ≤ 1 ∧
     (normalize3 pow10 l).1 + (normalize3 pow10 l).2.1 +
       (normalize3 pow10 l).2.2 = 1) := by
  have h1 := hpos l.1
  have h2 := hpos l.2.1
  have h3 := hpos l.2.2
  have hs : 0 < pow10 l.1 + pow10 l.2.1 + pow10 l.2.2 := by linarith
  simp only [normalize3]
  refine ⟨div_nonneg h1.le hs.le, ?_,
          div_nonneg h2.le hs.le, ?_,
          div_nonneg h3.le hs.le, ?_, ?_⟩
  · rw [div_le_one hs]; linarith
  · rw [div_le_one hs]; linarith
  · rw [div_le_one hs]; linarith
  · rw [div_add_div_same, div_add_div_same, div_self hs.ne']

/-- Appending one good triple preserves `goodTriples`. -/
theorem goodTriples_append (a b c : ℚ)
    (htr : 0 ≤ a ∧ a ≤ 1 ∧ 0 ≤ b ∧ b ≤ 1 ∧ 0 ≤ c ∧ c ≤ 1 ∧ a + b + c = 1) :
    ∀ xs, goodTriples xs → goodTriples (xs ++ [a, b, c]) := by
  intro xs
  induction xs using goodTriples.induct with
  | case1 => intro _; exact ⟨htr, trivial⟩
  | case2 x y z rest ih =>
    intro hg
    exact ⟨hg.1, ih hg.2⟩
  | case3 t h1 h2 =>
    intro hg
    cases t with
    | nil => exact absurd rfl h1
    | cons x t1 =>
      cases t1 with
      | nil => exact hg.elim
      | cons y t2 =>
        cases t2 with
        | nil => exact hg.elim
        | cons z v => exact absurd rfl (h2 x y z v)

end WASP

namespace WASP

/-- Every successful run of the likelihood sample loop starting from a good
accumulator ends with a good output array of length `expect`. -/
theorem glGo_good (pow10 : ℚ → ℚ) (hpos : ∀ x, 0 < pow10 x)
    (cap idx expect : Nat) :
    ∀ toks acc, goodTriples acc →
      ∀ out, glGo pow10 cap idx expect toks acc = .ok out →
        goodTriples out ∧ out.length = expect := by
  intro toks
  induction toks with
  | nil =>
    intro acc hacc out hout
    by_cases hl : acc.length = expect
    · simp only [glGo, hl, if_true] at hout
      simp only [Except.ok.injEq] at hout
      subst hout
      exact ⟨hacc, hl⟩
    · simp only [glGo, hl, if_false] at hout
      exact Except.noConfusion hout
  | cons tok rest ih =>
    intro acc hacc out hout
    cases hft : (strsepSplit isColon (util_strncpy cap tok))[idx]? with
    | none =>
      rw [glGo, hft] at hout
      exact ih acc hacc out hout
    | some ft =>
      cases hgl : parseGL ft with
      | error e =>
        simp only [glGo, hft, hgl] at hout
        exact Except.noConfusion hout
      | ok l =>
        simp only [glGo, hft, hgl] at hout
        by_cases hover : acc.length + 3 > expect
        · rw [if_pos hover] at hout
          exact Except.noConfusion hout
        · rw [if_neg hover] at hout
          exact ih _
            (goodTriples_append _ _ _ (normalize3_good pow10 hpos l) acc hacc)
            out hout

/-- C3: every triplet stored by `parse_geno_probs` has all three entries in
`[0, 1]` with exact sum 1 (the log10 values are converted through the
positive function `pow10` and then unconditionally renormalized by their
sum), the output length is `3 × n_samples`, and a literal `.` subfield is
replaced by the uniform log triplet whose renormalization is exactly
`(1/3, 1/3, 1/3)`. -/
theorem C3_probs_unit_sum (pow10 : ℚ → ℚ) (hpos : ∀ x, 0 < pow10 x)
    (cap : Nat) (format : Str) (n : Nat) (cur : Option Str) (out : List ℚ)
    (h : parse_geno_probs pow10 cap format n cur = .ok out) :
    out.length = 3 * n ∧ goodTriples out ∧
    parseGL dotTok = .ok (-477/1000, -477/1000, -477/1000) ∧
    normalize3 pow10 (-477/1000, -477/1000, -477/1000) = (1/3, 1/3, 1/3) := by
  have hout : goodTriples out ∧ out.length = 3 * n := by
    rw [parse_geno_probs] at h
    cases hidx : get_format_index format glLabel with
    | none =>
      rw [hidx] at h
      exact Except.noConfusion h
    | some gl_idx =>
      rw [hidx] at h
      exact glGo_good pow10 hpos cap gl_idx (3 * n)
        (tokensOf isLineDelim cur) [] trivial out h
  have hq : ∀ p : ℚ, 0 < p → p / (p + p + p) = 1/3 := by
    intro p hp
    rw [show p + p + p = 3 * p by ring]
    rw [div_eq_iff (by positivity)]
    ring
  refine ⟨hout.2, hout.1, rfl, ?_⟩
  simp only [normalize3]
  rw [hq _ (hpos _)]

/-- Witness for C3 at a concrete run: one sample with `GL` subfield `.` and
the positive conversion `pow10one` yields exactly `[1/3, 1/3, 1/3]`. -/
theorem C3_witness :
    (∀ x : ℚ, 0 < pow10one x) ∧
    parse_geno_probs pow10one 16 glLabel 1 (some dotTok) =
      .ok [1/(1+1+1), 1/(1+1+1), 1/(1+1+1)] ∧
    (([1/(1+1+1), 1/(1+1+1), 1/(1+1+1)] : List ℚ).length = 3 * 1 ∧
      goodTriples [1/(1+1+1), 1/(1+1+1), 1/(1+1+1)] ∧
      parseGL dotTok = .ok (-477/1000, -477/1000, -477/1000) ∧
      normalize3 pow10one (-477/1000, -477/1000, -477/1000) =
        (1/3, 1/3, 1/3)) :=
  ⟨fun _ => one_pos, rfl,
   C3_probs_unit_sum pow10one (fun _ => one_pos) 16 glLabel 1 (some dotTok)
     [1/(1+1+1), 1/(1+1+1), 1/(1+1+1)] rfl⟩

/-- C4 (amended): whenever the parsed allele pair contains a value outside
`{0, 1, MISSING}`, both of the sample's output positions are coerced to
`MISSING` and decoding continues without a fatal error, but the coercion
itself emits no warning (the warning list is exactly whatever the parse step
produced); in particular `2/3` yields `(-1, -1)` non-fatally with the
(unphased-notice) warning coming from the `/`-parse path, not from the
coercion. -/
theorem C4_nonbinary_coerced (wp : Bool) (ft : Str) (h1 h2 : Int)
    (w : List Warn) (wp' : Bool)
    (hp : parseGT wp ft = ((h1, h2), w, wp'))
    (hout : ¬(h1 = VCF_GTYPE_MISSING ∨ h1 = 0 ∨ h1 = 1) ∨
            ¬(h2 = VCF_GTYPE_MISSING ∨ h2 = 0 ∨ h2 = 1)) :
    gtSample wp ft = ((VCF_GTYPE_MISSING, VCF_GTYPE_MISSING), w, wp') ∧
    parse_haplotypes 1024 gtLabel 1 true (some ("2/3".toList)) =
      .ok ⟨[-1, -1], [Warn.unphased], false⟩ := by
  constructor
  · simp only [gtSample, hp]
    rw [rangeCheck, if_pos]
    rcases hout with hh | hh
    · left
      push_neg at hh
      exact hh
    · right
      push_neg at hh
      exact hh
  · decide

/-- Witness for C4 at the phased non-binary pair `2|3`. -/
theorem C4_witness :
    parseGT true ("2|3".toList) = ((2, 3), [], true) ∧
    (¬((2 : Int) = VCF_GTYPE_MISSING ∨ (2 : Int) = 0 ∨ (2 : Int) = 1) ∨
     ¬((3 : Int) = VCF_GTYPE_MISSING ∨ (3 : Int) = 0 ∨ (3 : Int) = 1)) ∧
    (gtSample true ("2|3".toList) =
        ((VCF_GTYPE_MISSING, VCF_GTYPE_MISSING), [], true) ∧
      parse_haplotypes 1024 gtLabel 1 true (some ("2/3".toList)) =
        .ok ⟨[-1, -1], [Warn.unphased], false⟩) :=
  ⟨by decide, by decide,
   C4_nonbinary_coerced true ("2|3".toList) 2 3 [] true (by decide)
     (by decide)⟩

/-- C5: a `GL` subfield that does not parse as three comma-separated values
and is not the literal `.` is fatal (`my_err`, aborting the decode, also when
it occurs inside the sample loop); the literal `.` is substituted by the
uniform log triplet; and — asymmetrically — an unparseable `GT` subfield
degrades to `(MISSING, MISSING)` with a warning, never fatally. -/
theorem C5_unparseable_gl_fatal (t : Str) (hne : t ≠ dotTok)
    (hparse : scanFloat3 t = none) :
    parseGL t = .error .badGL ∧
    parseGL dotTok = .ok (-477/1000, -477/1000, -477/1000) ∧
    (∀ pow10 cap idx expect tok rest acc,
        (strsepSplit isColon (util_strncpy cap tok))[idx]? = some t →
        glGo pow10 cap idx expect (tok :: rest) acc = .error .badGL) ∧
    (∀ wp ft, scanIntPairSep '|' ft = none → scanIntPairSep '/' ft = none →
        gtSample wp ft =
          ((VCF_GTYPE_MISSING, VCF_GTYPE_MISSING), [Warn.badGT], wp)) := by
  have hbad : parseGL t = .error .badGL := by
    simp only [parseGL, hparse]
    rw [if_neg hne]
  refine ⟨hbad, rfl, ?_, ?_⟩
  · intro pow10 cap idx expect tok rest acc hsub
    simp only [glGo, hsub, hbad]
  · intro wp ft ha hb
    simp only [gtSample, parseGT, ha, hb]
    rw [show rangeCheck (VCF_GTYPE_MISSING, VCF_GTYPE_MISSING) =
      (VCF_GTYPE_MISSING, VCF_GTYPE_MISSING) by decide]

/-- Witness for C5 at the concrete unparseable subfield `x`. -/
theorem C5_witness :
    ("x".toList ≠ dotTok) ∧ scanFloat3 ("x".toList) = none ∧
    (parseGL ("x".toList) = .error .badGL ∧
      parseGL dotTok = .ok (-477/1000, -477/1000, -477/1000) ∧
      (∀ pow10 cap idx expect tok rest acc,
          (strsepSplit isColon (util_strncpy cap tok))[idx]? =
            some ("x".toList) →
          glGo pow10 cap idx expect (tok :: rest) acc = .error .badGL) ∧
      (∀ wp ft, scanIntPairSep '|' ft = none →
          scanIntPairSep '/' ft = none →
          gtSample wp ft =
            ((VCF_GTYPE_MISSING, VCF_GTYPE_MISSING), [Warn.badGT], wp))) :=
  ⟨by decide, rfl,
   C5_unparseable_gl_fatal ("x".toList) (by decide) rfl⟩

end WASP

namespace WASP

/-- `parse_haplotypes` unfolds to `hapGo` once the `GT` index resolves. -/
theorem parse_haplotypes_eq (cap : Nat) (format : Str) (n : Nat) (wp : Bool)
    (cur : Option Str) (i : Nat)
    (h : get_format_index format gtLabel = some i) :
    parse_haplotypes cap format n wp cur =
      hapGo cap i (2 * n) (tokensOf isLineDelim cur) wp [] [] := by
  rw [parse_haplotypes, h]

/-- `parse_geno_probs` unfolds to `glGo` once the `GL` index resolves. -/
theorem parse_geno_probs_eq (pow10 : ℚ → ℚ) (cap : Nat) (format : Str)
    (n : Nat) (cur : Option Str) (i : Nat)
    (h : get_format_index format glLabel = some i) :
    parse_geno_probs pow10 cap format n cur =
      glGo pow10 cap i (3 * n) (tokensOf isLineDelim cur) [] := by
  rw [parse_geno_probs, h]

/-- C6: `parse_haplotypes` writes exactly 2 entries per writing sample and
enforces the count against `2 × n_samples` — success with output length
`2 × n_samples` exactly when the writing-token count equals the sample
count, the count-mismatch fatal error when it falls short, and the
overrun fatal error when it exceeds; `parse_geno_probs` enforces the same
policy with 3 entries per sample against `3 × n_samples` (on inputs whose
reached `GL` subfields parse, so that no other fatal error preempts the
count checks). -/
theorem C6_count_enforcement (cap : Nat) (format : Str) (n : Nat) (wp : Bool)
    (cur : Option Str) (pow10 : ℚ → ℚ) (gt_idx gl_idx : Nat)
    (hgt : get_format_index format gtLabel = some gt_idx)
    (hgl : get_format_index format glLabel = some gl_idx)
    (hok : ∀ t ∈ tokensOf isLineDelim cur, glParses cap gl_idx t = true) :
    (writingCount cap gt_idx (tokensOf isLineDelim cur) = n →
        ∃ hr, parse_haplotypes cap format n wp cur = .ok hr ∧
          hr.haps.length = 2 * n) ∧
    (writingCount cap gt_idx (tokensOf isLineDelim cur) < n →
        parse_haplotypes cap format n wp cur = .error .hapCount) ∧
    (n < writingCount cap gt_idx (tokensOf isLineDelim cur) →
        parse_haplotypes cap format n wp cur = .error .hapOverrun) ∧
    (writingCount cap gl_idx (tokensOf isLineDelim cur) = n →
        ∃ ps, parse_geno_probs pow10 cap format n cur = .ok ps ∧
          ps.length = 3 * n) ∧
    (writingCount cap gl_idx (tokensOf isLineDelim cur) < n →
        parse_geno_probs pow10 cap format n cur = .error .glCount) ∧
    (n < writingCount cap gl_idx (tokensOf isLineDelim cur) →
        parse_geno_probs pow10 cap format n cur = .error .glOverrun) := by
  rw [parse_haplotypes_eq cap format n wp cur gt_idx hgt,
      parse_geno_probs_eq pow10 cap format n cur gl_idx hgl]
  refine ⟨?_, ?_, ?_, ?_, ?_, ?_⟩ <;> intro hc
  · exact hapGo_exact cap gt_idx (2 * n) (tokensOf isLineDelim cur) wp [] []
      (by simp only [List.length_nil]; omega)
  · exact hapGo_under cap gt_idx (2 * n) (tokensOf isLineDelim cur) wp [] []
      (by simp only [List.length_nil]; omega)
  · exact hapGo_over cap gt_idx (2 * n) (tokensOf isLineDelim cur) wp [] []
      (by simp only [List.length_nil]; omega)
      (by simp only [List.length_nil]; omega)
  · exact glGo_exact pow10 cap gl_idx (3 * n) (tokensOf isLineDelim cur) []
      hok (by simp only [List.length_nil]; omega)
  · exact glGo_under pow10 cap gl_idx (3 * n) (tokensOf isLineDelim cur) []
      hok (by simp only [List.length_nil]; omega)
  · exact glGo_over pow10 cap gl_idx (3 * n) (tokensOf isLineDelim cur) []
      hok (by simp only [List.length_nil]; omega)
      (by simp only [List.length_nil]; omega)

/-- Witness for C6 at a concrete one-sample tail with `FORMAT = GT:GL`. -/
theorem C6_witness :
    get_format_index ("GT:GL".toList) gtLabel = some 0 ∧
    get_format_index ("GT:GL".toList) glLabel = some 1 ∧
    (∀ t ∈ tokensOf isLineDelim (some ("0|1:-1,-2,-3".toList)),
        glParses 16 1 t = true) ∧
    (writingCount 16 0 (tokensOf isLineDelim (some ("0|1:-1,-2,-3".toList)))
        = 1 →
      ∃ hr, parse_haplotypes 16 ("GT:GL".toList) 1 true
          (some ("0|1:-1,-2,-3".toList)) = .ok hr ∧
        hr.haps.length = 2 * 1) :=
  ⟨by decide, by decide, by decide,
   (C6_count_enforcement 16 ("GT:GL".toList) 1 true
     (some ("0|1:-1,-2,-3".toList)) pow10one 0 1 (by decide) (by decide)
     (by decide)).1⟩

/-- Skipping leading `##` metadata lines only increments the header-line
counter. -/
theorem readHeaderGo_meta :
    ∀ (metaLines rest : List Str) (nhl : Nat),
      (∀ l ∈ metaLines, util_str_starts_with l ("##".toList) = true) →
      readHeaderGo (metaLines ++ rest) nhl =
        readHeaderGo rest (nhl + metaLines.length) := by
  intro metaLines
  induction metaLines with
  | nil => intro rest nhl _; simp
  | cons l ls ih =>
    intro rest nhl hmeta
    have hl := hmeta l (List.mem_cons_self l ls)
    simp only [List.cons_append, readHeaderGo, hl, if_true, List.length_cons,
      List.append_eq]
    rw [ih rest (nhl + 1) (fun t ht => hmeta t (List.mem_cons_of_mem l ht))]
    congr 1
    omega

/-- C9: for a stream of `##` metadata lines followed by a `#CHROM` column
line, `vcf_read_header` sets the sample count to the column line's
token count minus the 9 fixed-column names; in particular the header line
`#CHROM POS ID REF ALT QUAL FILTER INFO FORMAT S1 S2` yields 2 samples. -/
theorem C9_sample_count (metaLines : List Str) (colLine : Str)
    (rest : List Str)
    (hmeta : ∀ l ∈ metaLines, util_str_starts_with l ("##".toList) = true)
    (h1 : util_str_starts_with colLine ("##".toList) = false)
    (h2 : util_str_starts_with colLine ("#CHROM".toList) = true) :
    vcf_read_header (metaLines ++ colLine :: rest) =
      .ok ⟨metaLines.length + 1,
        ((strsepSplit isLineDelim colLine).length : Int) - 9,
        headerNameWarns (strsepSplit isLineDelim colLine)⟩ ∧
    vcf_read_header
      [("#CHROM POS ID REF ALT QUAL FILTER INFO FORMAT S1 S2".toList)] =
      .ok ⟨1, 2, []⟩ := by
  constructor
  · rw [vcf_read_header, readHeaderGo_meta metaLines (colLine :: rest) 0 hmeta]
    simp only [readHeaderGo, h1, h2, if_true, Bool.false_eq_true, if_false]
    norm_num
  · decide

/-- Witness for C9 at a concrete two-sample header stream. -/
theorem C9_witness :
    (∀ l ∈ [("##fileformat=VCFv4.1".toList)],
        util_str_starts_with l ("##".toList) = true) ∧
    vcf_read_header
        [("##fileformat=VCFv4.1".toList),
         ("#CHROM POS ID REF ALT QUAL FILTER INFO FORMAT S1 S2".toList)] =
      .ok ⟨1 + 1, 11 - 9, []⟩ :=
  ⟨by decide, by
    have h := (C9_sample_count [("##fileformat=VCFv4.1".toList)]
      ("#CHROM POS ID REF ALT QUAL FILTER INFO FORMAT S1 S2".toList) []
      (by decide) (by decide) (by decide)).1
    simpa using h⟩

/-- C10: a sample token with fewer `:`-subfields than the resolved tag index
is skipped — the decoders write nothing for it and emit no per-sample
warning (the loop state passes through unchanged) — and the omission
surfaces only through the end-of-line count check, which then raises the
fewer-fields-than-expected fatal error. -/
theorem C10_missing_subfield_skips (cap idx : Nat) (tok : Str)
    (h : (strsepSplit isColon (util_strncpy cap tok)).length ≤ idx) :
    (∀ expect wp rest acc ws,
        hapGo cap idx expect (tok :: rest) wp acc ws =
          hapGo cap idx expect rest wp acc ws) ∧
    (∀ pow10 expect rest acc,
        glGo pow10 cap idx expect (tok :: rest) acc =
          glGo pow10 cap idx expect rest acc) ∧
    (∀ format n wp cur,
        get_format_index format gtLabel = some idx →
        writingCount cap idx (tokensOf isLineDelim cur) < n →
        parse_haplotypes cap format n wp cur = .error .hapCount) ∧
    (∀ pow10 format n cur,
        get_format_index format glLabel = some idx →
        (∀ t ∈ tokensOf isLineDelim cur, glParses cap idx t = true) →
        writingCount cap idx (tokensOf isLineDelim cur) < n →
        parse_geno_probs pow10 cap format n cur = .error .glCount) := by
  have hnone : (strsepSplit isColon (util_strncpy cap tok))[idx]? = none :=
    List.getElem?_eq_none h
  refine ⟨?_, ?_, ?_, ?_⟩
  · intro expect wp rest acc ws
    simp [hapGo, hnone]
  · intro pow10 expect rest acc
    simp [glGo, hnone]
  · intro format n wp cur hidx hlt
    rw [parse_haplotypes_eq cap format n wp cur idx hidx]
    exact hapGo_under cap idx (2 * n) (tokensOf isLineDelim cur) wp [] []
      (by simp only [List.length_nil]; omega)
  · intro pow10 format n cur hidx hok hlt
    rw [parse_geno_probs_eq pow10 cap format n cur idx hidx]
    exact glGo_under pow10 cap idx (3 * n) (tokensOf isLineDelim cur) []
      hok (by simp only [List.length_nil]; omega)

/-- Witness for C10 at the one-subfield token `0|1` against tag index 1. -/
theorem C10_witness :
    ((strsepSplit isColon (util_strncpy 16 ("0|1".toList))).length ≤ 1) ∧
    (∀ expect wp rest acc ws,
        hapGo 16 1 expect (("0|1".toList) :: rest) wp acc ws =
          hapGo 16 1 expect rest wp acc ws) :=
  ⟨by decide,
   (C10_missing_subfield_skips 16 1 ("0|1".toList) (by decide)).1⟩

end WASP

namespace WASP

/-- C7: on every data line with at least the 9 fixed tokens, `vcf_read_line`
records the true untruncated source lengths of the ref and alt tokens in
`ref_len`/`alt_len`, stores the allele text capped to the buffer capacity,
and emits exactly one truncation warning per allele whose stored length
differs from its true length — never silently and never fatally. -/
theorem C7_true_allele_lengths (caps : VCFCaps) (pow10 : ℚ → ℚ) (n : Nat)
    (wp : Bool) (line : Str) (t1 t2 t3 t4 t5 t6 t7 t8 t9 : Str)
    (rest : List Str)
    (htoks : tokensOf isLineDelim (some line) =
      t1 :: t2 :: t3 :: t4 :: t5 :: t6 :: t7 :: t8 :: t9 :: rest) :
    ∃ out, vcf_read_line caps pow10 n wp false false (some line) =
        .ok (.line out) ∧
      out.info.ref_len = t4.length ∧
      out.info.ref_allele = util_strncpy caps.alleleCap t4 ∧
      out.info.alt_len = t5.length ∧
      out.info.alt_allele = util_strncpy caps.alleleCap t5 ∧
      out.warns.count Warn.truncAllele =
        ((if (util_strncpy caps.alleleCap t4).length ≠ t4.length then 1
          else 0) +
         (if (util_strncpy caps.alleleCap t5).length ≠ t5.length then 1
          else 0)) := by
  obtain ⟨s1, h1, hk1⟩ := nextTok_of_tokens (some line) t1 _ htoks
  obtain ⟨s2, h2, hk2⟩ := nextTok_of_tokens s1 t2 _ hk1
  obtain ⟨s3, h3, hk3⟩ := nextTok_of_tokens s2 t3 _ hk2
  obtain ⟨s4, h4, hk4⟩ := nextTok_of_tokens s3 t4 _ hk3
  obtain ⟨s5, h5, hk5⟩ := nextTok_of_tokens s4 t5 _ hk4
  obtain ⟨s6, h6, hk6⟩ := nextTok_of_tokens s5 t6 _ hk5
  obtain ⟨s7, h7, hk7⟩ := nextTok_of_tokens s6 t7 _ hk6
  obtain ⟨s8, h8, hk8⟩ := nextTok_of_tokens s7 t8 _ hk7
  obtain ⟨s9, h9, hk9⟩ := nextTok_of_tokens s8 t9 _ hk8
  refine ⟨⟨⟨util_strncpy caps.chromCap t1, util_parse_long t2,
      util_strncpy caps.idCap t3,
      util_strncpy caps.alleleCap t4, t4.length,
      util_strncpy caps.alleleCap t5, t5.length,
      util_strncpy caps.qualCap t6, util_strncpy caps.filterCap t7,
      util_strncpy caps.infoCap t8, util_strncpy caps.formatCap t9⟩,
    (if (util_strncpy caps.alleleCap t4).length ≠ t4.length
      then [Warn.truncAllele] else []) ++
    (if (util_strncpy caps.alleleCap t5).length ≠ t5.length
      then [Warn.truncAllele] else []),
    none, none, wp, none⟩, ?_, rfl, rfl, rfl, rfl, ?_⟩
  · simp only [vcf_read_line, h1, h2, h3, h4, h5, h6, h7, h8, h9, exbind_ok,
      Bool.false_eq_true, false_and, and_false, if_false]
  · split_ifs <;>
      simp [List.count_append, List.count_cons, List.count_nil]

/-- Witness for C7: a 4-bp ref allele against a 3-byte buffer is stored as
`AAA` with `ref_len = 4` and exactly one truncation warning. -/
theorem C7_witness :
    (tokensOf isLineDelim (some c7line) =
      "1".toList :: "5".toList :: "rs".toList :: "AAAA".toList ::
      "T".toList :: "9".toList :: "P".toList :: ".".toList ::
      "GT".toList :: []) ∧
    (∃ out, vcf_read_line caps7 pow10one 0 true false false (some c7line) =
        .ok (.line out) ∧
      out.info.ref_len = ("AAAA".toList).length ∧
      out.info.ref_allele = util_strncpy caps7.alleleCap ("AAAA".toList) ∧
      out.info.alt_len = ("T".toList).length ∧
      out.info.alt_allele = util_strncpy caps7.alleleCap ("T".toList) ∧
      out.warns.count Warn.truncAllele =
        ((if (util_strncpy caps7.alleleCap ("AAAA".toList)).length ≠
            ("AAAA".toList).length then 1 else 0) +
         (if (util_strncpy caps7.alleleCap ("T".toList)).length ≠
            ("T".toList).length then 1 else 0))) :=
  ⟨by decide,
   C7_true_allele_lengths caps7 pow10one 0 true c7line
     ("1".toList) ("5".toList) ("rs".toList) ("AAAA".toList) ("T".toList)
     ("9".toList) ("P".toList) (".".toList) ("GT".toList) [] (by decide)⟩

end WASP
